import Mathlib

set_option maxHeartbeats 1000000
set_option maxRecDepth 100000

/-!
Shallow embedding of the Modbus TCP transport layer (`tcpTransport` in the
Go source) and of the UDP datagram-to-byte-stream adapter (`udpSockWrapper`).

Bytes are modelled as `Nat` (on the Go side they are `uint8`); byte streams
as `List Nat`.  The socket's inbound byte stream is passed explicitly and a
read consumes a prefix of it; a stream too short to satisfy `io.ReadFull`
is an I/O error (connection closed / deadline expired).  Fallible deadline
setting and frame writes are modelled by explicit `Bool` outcome parameters.
-/

deriving instance DecidableEq for Except

/-- Maximum total TCP frame length in bytes (`maxTCPFrameLength`). -/
def maxTCPFrameLength : Nat := 260

/-- Length of the MBAP header in bytes (`mbapHeaderLength`). -/
def mbapHeaderLength : Nat := 7

/-- Protocol data unit (`pdu`): unit id and function code are `uint8` in the
source, the payload an opaque byte slice. -/
structure pdu where
  unitId : Nat
  functionCode : Nat
  payload : List Nat
deriving DecidableEq

/-- Errors surfaced by the framing layer: `io.ReadFull` failures
(short read / timeout), `ErrProtocol`, and `ErrUnknownProtocolId`. -/
inductive mbapError where
  | ioErr : mbapError
  | protocolErr : mbapError
  | unknownProtocolIdErr : mbapError
deriving DecidableEq

/-- Errors surfaced by transport operations: `SetDeadline` failure,
socket write failure, or a framing error. -/
inductive transportError where
  | deadlineErr : transportError
  | writeErr : transportError
  | frameErr : mbapError → transportError
deriving DecidableEq

/-- Modelled from the spec: the repository's big-endian decoding helper
`bytesToUint16(BIG_ENDIAN, in)` for two bytes (not under `src/`); per the
spec, "multi-byte integers are big-endian".  The `% 256` reflects the
`uint8` type of the wire bytes. -/
def bytesToUint16 (b0 b1 : Nat) : Nat :=
  b0 % 256 * 256 + b1 % 256

/-- Modelled from the spec: the repository's big-endian encoding helper
`uint16ToBytes(BIG_ENDIAN, v)` (not under `src/`); high byte first.  For
`v < 65536` (the `uint16` range) this is exactly `[v >>> 8, v &&& 0xff]`. -/
def uint16ToBytes (v : Nat) : List Nat :=
  [v / 256 % 256, v % 256]

/-- `tcpTransport.readMBAPFrame`: reads one MBAP frame off the stream `s`.
Returns the decode result together with the bytes of `s` left unread.
Mirrors the source: read 7 header bytes, decode the fields, compute
`bytesNeeded = length - 1` (a Go `int`, hence `Int` here), reject oversized
then zero/negative lengths as `ErrProtocol`, read the PDU body, and only
then reject a nonzero protocol id as `ErrUnknownProtocolId`. -/
def readMBAPFrame (s : List Nat) : Except mbapError (pdu × Nat) × List Nat :=
  if s.length < 7 then
    (.error .ioErr, s)
  else
    let txnId := bytesToUint16 (s.getD 0 0) (s.getD 1 0)
    let protocolId := bytesToUint16 (s.getD 2 0) (s.getD 3 0)
    let unitId := s.getD 6 0
    let bytesNeeded : Int := (bytesToUint16 (s.getD 4 0) (s.getD 5 0) : Int) - 1
    if 260 < bytesNeeded + 7 then
      (.error .protocolErr, s.drop 7)
    else if bytesNeeded ≤ 0 then
      (.error .protocolErr, s.drop 7)
    else
      let n := bytesNeeded.toNat
      let rest := s.drop 7
      if rest.length < n then
        (.error .ioErr, [])
      else if protocolId ≠ 0 then
        (.error .unknownProtocolIdErr, rest.drop n)
      else
        (.ok (⟨unitId, (rest.take n).getD 0 0, (rest.take n).drop 1⟩, txnId), rest.drop n)

/-- `tcpTransport.assembleMBAPFrame`: big-endian transaction id, protocol id
`0x0000`, big-endian length `uint16(2 + len(payload))` (the Go conversion
truncates mod 2^16), unit id, function code, payload. -/
def assembleMBAPFrame (txnId : Nat) (p : pdu) : List Nat :=
  uint16ToBytes txnId ++ [0, 0] ++
    uint16ToBytes ((2 + p.payload.length) % 65536) ++
    [p.unitId, p.functionCode] ++ p.payload

/-- A successful decode, and a decode rejected for its protocol id, both
consume at least one full frame (8 or more bytes) from the stream. -/
theorem readMBAPFrame_consumes (s : List Nat)
    (h : (readMBAPFrame s).1 = .error .unknownProtocolIdErr ∨
         ∃ x, (readMBAPFrame s).1 = .ok x) :
    (readMBAPFrame s).2.length < s.length := by
  simp only [readMBAPFrame] at h ⊢
  split_ifs at h ⊢ with h1 h2 h3 h4 h5 <;>
    simp_all [List.length_drop] <;> omega

/-- `tcpTransport.readResponse`: the client matching loop.  Keeps reading
frames until one decodes with the expected transaction id; frames rejected
with `ErrUnknownProtocolId` and frames with a mismatched transaction id are
skipped, any other error aborts. -/
def readResponse (lastTxnId : Nat) (s : List Nat) : Except mbapError pdu :=
  match hr : readMBAPFrame s with
  | (.error .unknownProtocolIdErr, rest) =>
      readResponse lastTxnId rest
  | (.error e, _) => .error e
  | (.ok (res, txnId), rest) =>
      if lastTxnId ≠ txnId then
        readResponse lastTxnId rest
      else
        .ok res
termination_by s.length
decreasing_by
  · have hc := readMBAPFrame_consumes s (Or.inl (by rw [hr]))
    rw [hr] at hc
    exact hc
  · have hc := readMBAPFrame_consumes s (Or.inr ⟨(res, txnId), by rw [hr]⟩)
    rw [hr] at hc
    exact hc

/-- Transport session state: the 16-bit transaction counter `lastTxnId`. -/
structure tcpTransport where
  lastTxnId : Nat
deriving DecidableEq

/-- `tcpTransport.ExecuteRequest`: set the deadline, increment the
transaction counter (uint16, wraps mod 2^16), write the request frame,
then run the matching loop on the inbound stream.  Returns the new
transport state, the bytes handed to the socket write, and the outcome. -/
def tcpTransport.ExecuteRequest (tt : tcpTransport) (deadlineOk writeOk : Bool)
    (req : pdu) (inbound : List Nat) :
    tcpTransport × List Nat × Except transportError pdu :=
  if !deadlineOk then
    (tt, [], .error .deadlineErr)
  else
    let tt' : tcpTransport := { lastTxnId := (tt.lastTxnId + 1) % 65536 }
    let frame := assembleMBAPFrame tt'.lastTxnId req
    if !writeOk then
      (tt', frame, .error .writeErr)
    else
      (tt', frame,
        match readResponse tt'.lastTxnId inbound with
        | .error e => .error (.frameErr e)
        | .ok res => .ok res)

/-- `tcpTransport.ReadRequest`: set the deadline, read exactly one frame,
and on success record its transaction id in `lastTxnId`. -/
def tcpTransport.ReadRequest (tt : tcpTransport) (deadlineOk : Bool)
    (inbound : List Nat) : tcpTransport × Except transportError pdu :=
  if !deadlineOk then
    (tt, .error .deadlineErr)
  else
    match readMBAPFrame inbound with
    | (.error e, _) => (tt, .error (.frameErr e))
    | (.ok (req, txnId), _) => ({ lastTxnId := txnId }, .ok req)

/-- `tcpTransport.WriteResponse`: the bytes written for a response — the
given PDU framed with the stored `lastTxnId`. -/
def tcpTransport.WriteResponse (tt : tcpTransport) (res : pdu) : List Nat :=
  assembleMBAPFrame tt.lastTxnId res

/-- Go's builtin `copy(dst, src)`: overwrites the first
`min dst.length src.length` entries of `dst` with those of `src`. -/
def goCopy (dst src : List Nat) : List Nat :=
  src.take dst.length ++ dst.drop (min src.length dst.length)

/-- `udpSockWrapper` state: the count of unconsumed leftover bytes, the
internal receive buffer `rxbuf` (260 bytes in the source), and the queue
of datagrams the socket will deliver (model of the UDP socket). -/
structure udpSockWrapper where
  leftoverCount : Nat
  rxbuf : List Nat
  datagrams : List (List Nat)
deriving DecidableEq

/-- `udpSockWrapper.Read`: serve a read of up to `bufLen` bytes.  If
leftover bytes are buffered, copy `min bufLen leftoverCount` of them out,
shift the remainder to the front of `rxbuf`, and return without touching
the socket.  Otherwise receive one datagram into `rxbuf` (truncated to the
buffer size, as `sock.Read` does), copy out as much as fits, and keep the
remainder as the new leftover region.  An exhausted datagram queue models
a socket read error. -/
def udpSockWrapper.Read (usw : udpSockWrapper) (bufLen : Nat) :
    udpSockWrapper × Except Unit (List Nat) :=
  if 0 < usw.leftoverCount then
    let copied := min bufLen usw.leftoverCount
    let out := usw.rxbuf.take copied
    let rxbuf' :=
      if copied < usw.leftoverCount then
        goCopy usw.rxbuf ((usw.rxbuf.drop copied).take (usw.leftoverCount - copied))
      else usw.rxbuf
    ({ leftoverCount := usw.leftoverCount - copied, rxbuf := rxbuf',
       datagrams := usw.datagrams }, .ok out)
  else
    match usw.datagrams with
    | [] => (usw, .error ())
    | d :: ds =>
      let rxbuf1 := goCopy usw.rxbuf d
      let rlen := min d.length usw.rxbuf.length
      let copied := min bufLen rlen
      let out := rxbuf1.take copied
      let rxbuf2 :=
        if copied < rlen then
          goCopy rxbuf1 ((rxbuf1.drop copied).take (rlen - copied))
        else rxbuf1
      ({ leftoverCount := rlen - copied, rxbuf := rxbuf2,
         datagrams := ds }, .ok out)

/-- The on-the-wire frame layout exactly as the spec's "Frame encode
algorithm" words it — big-endian transaction id, protocol id zero,
big-endian length, unit id, function code, payload — with the length
field reduced mod 2^16 (the amendment forced by the `uint16` conversion). -/
def specMBAPFrame (txnId : Nat) (p : pdu) : List Nat :=
  [txnId / 256, txnId % 256, 0, 0,
   (2 + p.payload.length) % 65536 / 256, (2 + p.payload.length) % 65536 % 256,
   p.unitId, p.functionCode] ++ p.payload

/-- The two bytes of the length field of an assembled frame, for any
payload. -/
theorem assemble_lengthField_bytes (pl : List Nat) :
    (assembleMBAPFrame 0 ⟨0, 0, pl⟩).getD 4 0 = (2 + pl.length) % 65536 / 256 % 256 ∧
    (assembleMBAPFrame 0 ⟨0, 0, pl⟩).getD 5 0 = (2 + pl.length) % 65536 % 256 := by
  constructor <;> simp [assembleMBAPFrame, uint16ToBytes]

/-- C5 counterexample: for the PDU with a payload of 65534 bytes, the Go
conversion `uint16(2+len(payload))` wraps, so the encoded 16-bit length
field decodes to 0 even though `2 + len(payload) = 65536`: the claim's
"length equal to 2 + len(payload)" fails at this input. -/
theorem assemble_length_field_wraps :
    bytesToUint16 ((assembleMBAPFrame 0 ⟨0, 0, List.replicate 65534 0⟩).getD 4 0)
        ((assembleMBAPFrame 0 ⟨0, 0, List.replicate 65534 0⟩).getD 5 0) = 0 ∧
    2 + (List.replicate 65534 (0 : Nat)).length = 65536 := by
  refine ⟨?_, by rw [List.length_replicate]⟩
  obtain ⟨h4, h5⟩ := assemble_lengthField_bytes (List.replicate 65534 0)
  rw [List.length_replicate] at h4 h5
  rw [h4, h5]
  norm_num [bytesToUint16]

/-- C5 (amended): for every PDU and every 16-bit transaction id, the
assembled frame is exactly the spec's concatenation — 2-byte big-endian
transaction id, protocol id `0x00 0x00`, 2-byte big-endian length equal to
`(2 + len(payload)) mod 2^16`, unit id, function code, payload — and its
total size is `7 + 1 + len(payload)` bytes. -/
theorem assemble_frame_layout (txnId u f : Nat) (pl : List Nat)
    (ht : txnId < 65536) :
    assembleMBAPFrame txnId ⟨u, f, pl⟩ = specMBAPFrame txnId ⟨u, f, pl⟩ ∧
    (assembleMBAPFrame txnId ⟨u, f, pl⟩).length = 8 + pl.length := by
  constructor
  · simp only [assembleMBAPFrame, specMBAPFrame, uint16ToBytes, List.cons_append,
      List.nil_append, List.cons.injEq]
    simp only [and_true, true_and, eq_self_iff_true]
    omega
  · simp [assembleMBAPFrame, uint16ToBytes]
    omega

/-- Witness for the amended C5 theorem at a concrete input. -/
theorem assemble_frame_layout_witness :
    4660 < 65536 ∧
    (assembleMBAPFrame 4660 ⟨1, 2, [3]⟩ = specMBAPFrame 4660 ⟨1, 2, [3]⟩ ∧
     (assembleMBAPFrame 4660 ⟨1, 2, [3]⟩).length = 8 + ([3] : List Nat).length) :=
  ⟨by decide, assemble_frame_layout 4660 1 2 [3] (by decide)⟩

/-- C1: encoding any PDU whose payload holds at most 252 bytes with any
16-bit transaction id, then decoding those exact bytes, succeeds,
reproduces the unit id, function code, payload and transaction id, and
consumes the whole frame. -/
theorem mbap_encode_decode_roundtrip (txnId u f : Nat) (pl : List Nat)
    (ht : txnId < 65536) (hp : pl.length ≤ 252) :
    readMBAPFrame (assembleMBAPFrame txnId ⟨u, f, pl⟩) = (.ok (⟨u, f, pl⟩, txnId), []) := by
  have hT : bytesToUint16 (txnId / 256 % 256) (txnId % 256) = txnId := by
    unfold bytesToUint16; omega
  have hL : bytesToUint16 ((2 + pl.length) % 65536 / 256 % 256) ((2 + pl.length) % 65536 % 256)
      = 2 + pl.length := by
    unfold bytesToUint16; omega
  have hP : bytesToUint16 0 0 = 0 := by unfold bytesToUint16; omega
  simp only [assembleMBAPFrame, uint16ToBytes, List.cons_append, List.nil_append]
  simp only [readMBAPFrame, List.getD_cons_zero, List.getD_cons_succ,
    List.length_cons, List.drop_succ_cons, List.drop_zero, hT, hL, hP]
  have hn : (((2 + pl.length : Nat) : Int) - 1).toNat = pl.length + 1 := by omega
  rw [hn]
  split_ifs with h1 h2 h3 h4 h5
  · exfalso; omega
  · exfalso; omega
  · exfalso; omega
  · exfalso; simp only [List.length_cons] at h4; omega
  · exfalso; exact h5 rfl
  · simp only [List.take_succ_cons, List.take_length, List.drop_succ_cons,
      List.drop_length, List.getD_cons_zero, List.drop_one]
    simp

/-- Witness for the C1 round-trip theorem at a concrete input. -/
theorem mbap_encode_decode_roundtrip_witness :
    4660 < 65536 ∧ ([10, 20] : List Nat).length ≤ 252 ∧
    readMBAPFrame (assembleMBAPFrame 4660 ⟨9, 3, [10, 20]⟩) =
      (.ok (⟨9, 3, [10, 20]⟩, 4660), []) :=
  ⟨by decide, by decide, mbap_encode_decode_roundtrip 4660 9 3 [10, 20] (by decide) (by decide)⟩

/-- One step of the matching loop: a frame rejected for its protocol id is
discarded and reading continues on the rest of the stream. -/
theorem readResponse_skip_proto (T : Nat) (s rest : List Nat)
    (h : readMBAPFrame s = (.error .unknownProtocolIdErr, rest)) :
    readResponse T s = readResponse T rest := by
  rw [readResponse]
  split <;> rw [h] at * <;> simp_all

/-- One step of the matching loop: any error other than the
unknown-protocol-identifier condition aborts the loop. -/
theorem readResponse_abort (T : Nat) (s rest : List Nat) (e : mbapError)
    (hne : e ≠ .unknownProtocolIdErr)
    (h : readMBAPFrame s = (.error e, rest)) :
    readResponse T s = .error e := by
  rw [readResponse]
  split <;> rw [h] at * <;> simp_all

/-- One step of the matching loop: a decoded frame with a mismatched
transaction id is discarded and reading continues. -/
theorem readResponse_skip_txn (T : Nat) (s rest : List Nat) (p : pdu) (t : Nat)
    (hne : t ≠ T) (h : readMBAPFrame s = (.ok (p, t), rest)) :
    readResponse T s = readResponse T rest := by
  rw [readResponse]
  split <;> rw [h] at * <;> simp_all
  intro hTt
  exact absurd hTt.symm hne

/-- One step of the matching loop: a decoded frame carrying the expected
transaction id ends the loop with its PDU. -/
theorem readResponse_hit (T : Nat) (s rest : List Nat) (p : pdu)
    (h : readMBAPFrame s = (.ok (p, T), rest)) :
    readResponse T s = .ok p := by
  rw [readResponse]
  split <;> rw [h] at * <;> simp_all

/-- Soundness of the matching loop: a returned PDU always comes from a
frame that decoded with exactly the expected transaction id. -/
theorem readResponse_ok_sound (T : Nat) (s : List Nat) (p : pdu)
    (h : readResponse T s = .ok p) :
    ∃ s', (readMBAPFrame s').1 = .ok (p, T) := by
  have key : ∀ n (s : List Nat), s.length ≤ n → readResponse T s = .ok p →
      ∃ s', (readMBAPFrame s').1 = .ok (p, T) := by
    intro n
    induction n with
    | zero =>
      intro s hlen h
      have hs : s = [] := List.length_eq_zero.mp (Nat.le_zero.mp hlen)
      subst hs
      rw [readResponse_abort T [] [] .ioErr (by simp) (by decide)] at h
      cases h
    | succ n ih =>
      intro s hlen h
      rcases hfr : readMBAPFrame s with ⟨r, rest⟩
      have hrest : rest.length < s.length := by
        have := readMBAPFrame_consumes s
        rcases r with e | ⟨q, t⟩
        · cases e with
          | unknownProtocolIdErr =>
            have hc := this (Or.inl (by rw [hfr]))
            rw [hfr] at hc; exact hc
          | ioErr =>
            exfalso
            rw [readResponse_abort T s rest .ioErr (by simp) hfr] at h
            cases h
          | protocolErr =>
            exfalso
            rw [readResponse_abort T s rest .protocolErr (by simp) hfr] at h
            cases h
        · have hc := this (Or.inr ⟨(q, t), by rw [hfr]⟩)
          rw [hfr] at hc; exact hc
      rcases r with e | ⟨q, t⟩
      · cases e with
        | unknownProtocolIdErr =>
          rw [readResponse_skip_proto T s rest hfr] at h
          exact ih rest (by omega) h
        | ioErr =>
          rw [readResponse_abort T s rest .ioErr (by simp) hfr] at h
          cases h
        | protocolErr =>
          rw [readResponse_abort T s rest .protocolErr (by simp) hfr] at h
          cases h
      · by_cases hTt : t = T
        · rw [readResponse_hit T s rest q (by rw [hfr, hTt])] at h
          injection h with hqp
          refine ⟨s, ?_⟩
          rw [hfr]
          simp [hqp, hTt]
        · rw [readResponse_skip_txn T s rest q t hTt hfr] at h
          exact ih rest (by omega) h
  exact key s.length s (Nat.le_refl _) h

/-- C2: behaviour of the client matching loop awaiting transaction id `T`:
a frame rejected with the unknown-protocol-identifier condition is
discarded and reading continues; a decoded frame with transaction id ≠ `T`
is discarded and reading continues; the loop returns successfully exactly
upon a frame decoding with transaction id `T`; any other decode or I/O
error aborts the loop with that error; and a returned PDU always comes
from a frame that decoded with transaction id `T`. -/
theorem client_matching_loop (T : Nat) :
    (∀ s rest, readMBAPFrame s = (.error .unknownProtocolIdErr, rest) →
        readResponse T s = readResponse T rest) ∧
    (∀ s rest p t, t ≠ T → readMBAPFrame s = (.ok (p, t), rest) →
        readResponse T s = readResponse T rest) ∧
    (∀ s rest p, readMBAPFrame s = (.ok (p, T), rest) →
        readResponse T s = .ok p) ∧
    (∀ s rest e, e ≠ .unknownProtocolIdErr → readMBAPFrame s = (.error e, rest) →
        readResponse T s = .error e) ∧
    (∀ s p, readResponse T s = .ok p → ∃ s', (readMBAPFrame s').1 = .ok (p, T)) :=
  ⟨fun s rest h => readResponse_skip_proto T s rest h,
   fun s rest p t hne h => readResponse_skip_txn T s rest p t hne h,
   fun s rest p h => readResponse_hit T s rest p h,
   fun s rest e hne h => readResponse_abort T s rest e hne h,
   fun s p h => readResponse_ok_sound T s p h⟩

/-- Witness for the C2 matching-loop theorem: a frame carrying the awaited
transaction id 5 is returned at once. -/
theorem client_matching_loop_witness :
    readResponse 5 (assembleMBAPFrame 5 ⟨9, 3, [7]⟩) = .ok ⟨9, 3, [7]⟩ :=
  (client_matching_loop 5).2.2.1 (assembleMBAPFrame 5 ⟨9, 3, [7]⟩) [] ⟨9, 3, [7]⟩
    (by decide)

/-- C3: a frame whose decoded length field makes `remaining = length - 1`
satisfy `remaining ≤ 0` (in particular a length field of 0) or
`7 + remaining > 260` is rejected as a protocol error and yields no PDU:
the decoder returns `ErrProtocol`, the client matching loop aborts with
`ErrProtocol`, and the server read path returns the error and no PDU. -/
theorem mbap_length_rejection (s : List Nat) (T : Nat) (tt : tcpTransport)
    (h7 : 7 ≤ s.length)
    (hbad : ((bytesToUint16 (s.getD 4 0) (s.getD 5 0) : Int) - 1 ≤ 0) ∨
            260 < ((bytesToUint16 (s.getD 4 0) (s.getD 5 0) : Int) - 1) + 7) :
    readMBAPFrame s = (.error .protocolErr, s.drop 7) ∧
    readResponse T s = .error .protocolErr ∧
    tt.ReadRequest true s = (tt, .error (.frameErr .protocolErr)) := by
  have hframe : readMBAPFrame s = (.error .protocolErr, s.drop 7) := by
    simp only [readMBAPFrame]
    split_ifs with h1 h2 h3 <;> try rfl
    · exact absurd h1 (by omega)
    all_goals (exfalso; rcases hbad with hb | hb <;> omega)
  refine ⟨hframe, readResponse_abort T s (s.drop 7) .protocolErr (by simp) hframe, ?_⟩
  simp [tcpTransport.ReadRequest, hframe]

/-- Witness for the C3 rejection theorem: a frame with length field 0. -/
theorem mbap_length_rejection_witness :
    readMBAPFrame [0, 1, 0, 0, 0, 0, 9, 9, 9] =
      (.error .protocolErr, ([0, 1, 0, 0, 0, 0, 9, 9, 9] : List Nat).drop 7) ∧
    readResponse 5 [0, 1, 0, 0, 0, 0, 9, 9, 9] = .error .protocolErr ∧
    tcpTransport.ReadRequest ⟨5⟩ true [0, 1, 0, 0, 0, 0, 9, 9, 9] =
      (⟨5⟩, .error (.frameErr .protocolErr)) :=
  mbap_length_rejection [0, 1, 0, 0, 0, 0, 9, 9, 9] 5 ⟨5⟩ (by decide)
    (Or.inl (by decide))

/-- C4: the server read path is single-shot: whatever `readMBAPFrame`
yields decides the call — any decode error (the unknown-protocol-identifier
condition included) aborts with that error and leaves the state unchanged,
while a successful decode records the frame's transaction id, and a
subsequent `WriteResponse` frames its PDU with exactly that id. -/
theorem server_single_shot (tt : tcpTransport) (inbound : List Nat) :
    (∀ e rest, readMBAPFrame inbound = (.error e, rest) →
        tt.ReadRequest true inbound = (tt, .error (.frameErr e))) ∧
    (∀ p t rest, readMBAPFrame inbound = (.ok (p, t), rest) →
        tt.ReadRequest true inbound = ({ lastTxnId := t }, .ok p) ∧
        ∀ res, tcpTransport.WriteResponse (tt.ReadRequest true inbound).1 res
          = assembleMBAPFrame t res) := by
  constructor
  · intro e rest h
    simp [tcpTransport.ReadRequest, h]
  · intro p t rest h
    constructor
    · simp [tcpTransport.ReadRequest, h]
    · intro res
      simp [tcpTransport.ReadRequest, h, tcpTransport.WriteResponse]

/-- Witness for the C4 single-shot theorem at a concrete request frame. -/
theorem server_single_shot_witness :
    tcpTransport.ReadRequest ⟨5⟩ true (assembleMBAPFrame 77 ⟨9, 3, [7]⟩) =
      (⟨77⟩, .ok ⟨9, 3, [7]⟩) ∧
    tcpTransport.WriteResponse
        (tcpTransport.ReadRequest ⟨5⟩ true (assembleMBAPFrame 77 ⟨9, 3, [7]⟩)).1 ⟨1, 2, [3]⟩
      = assembleMBAPFrame 77 ⟨1, 2, [3]⟩ :=
  ⟨((server_single_shot ⟨5⟩ (assembleMBAPFrame 77 ⟨9, 3, [7]⟩)).2 ⟨9, 3, [7]⟩ 77 []
      (by decide)).1,
   ((server_single_shot ⟨5⟩ (assembleMBAPFrame 77 ⟨9, 3, [7]⟩)).2 ⟨9, 3, [7]⟩ 77 []
      (by decide)).2 ⟨1, 2, [3]⟩⟩

/-- C9: if the server read path returns an error — deadline failure, I/O
error, protocol error, or the unknown-protocol-identifier condition — the
stored transaction id that `WriteResponse` would use is unchanged. -/
theorem read_request_error_preserves_txn (tt : tcpTransport) (dok : Bool)
    (inbound : List Nat) (e : transportError)
    (herr : (tt.ReadRequest dok inbound).2 = .error e) :
    (tt.ReadRequest dok inbound).1 = tt := by
  cases dok
  · simp [tcpTransport.ReadRequest]
  · simp only [tcpTransport.ReadRequest, Bool.not_true] at herr ⊢
    rcases hfr : readMBAPFrame inbound with ⟨r, rest⟩
    rcases r with e' | ⟨p, t⟩ <;> simp [hfr] at herr ⊢

/-- Witness for the C9 atomicity theorem: an empty inbound stream makes the
read fail, and the stored transaction id survives. -/
theorem read_request_error_preserves_txn_witness :
    (tcpTransport.ReadRequest ⟨5⟩ true []).2 = .error (.frameErr .ioErr) ∧
    (tcpTransport.ReadRequest ⟨5⟩ true []).1 = ⟨5⟩ :=
  ⟨by decide, read_request_error_preserves_txn ⟨5⟩ true [] (.frameErr .ioErr) (by decide)⟩

/-- C6: a call to `ExecuteRequest` that gets past setting the deadline
advances the 16-bit transaction counter by one (wrapping mod 2^16) before
encoding, frames the request with the new counter value, and with the
counter starting at 0 the frame on the wire begins `00 01 00 00`. -/
theorem execute_request_first_frame (tt : tcpTransport) (w : Bool) (req : pdu)
    (inbound : List Nat) :
    (tt.ExecuteRequest true w req inbound).1.lastTxnId = (tt.lastTxnId + 1) % 65536 ∧
    (tt.ExecuteRequest true w req inbound).2.1 =
      assembleMBAPFrame ((tt.lastTxnId + 1) % 65536) req ∧
    (tt.lastTxnId = 0 →
      ((tt.ExecuteRequest true w req inbound).2.1).take 4 = [0, 1, 0, 0]) := by
  refine ⟨?_, ?_, ?_⟩
  · cases w <;> simp [tcpTransport.ExecuteRequest]
  · cases w <;> simp [tcpTransport.ExecuteRequest]
  · intro h0
    cases w <;> simp [tcpTransport.ExecuteRequest, h0, assembleMBAPFrame, uint16ToBytes]

/-- Witness for the C6 theorem: a client whose counter starts at 0. -/
theorem execute_request_first_frame_witness :
    (tcpTransport.ExecuteRequest ⟨0⟩ true true ⟨9, 3, [7]⟩ []).1.lastTxnId = (0 + 1) % 65536 ∧
    (tcpTransport.ExecuteRequest ⟨0⟩ true true ⟨9, 3, [7]⟩ []).2.1 =
      assembleMBAPFrame ((0 + 1) % 65536) ⟨9, 3, [7]⟩ ∧
    ((tcpTransport.ExecuteRequest ⟨0⟩ true true ⟨9, 3, [7]⟩ []).2.1).take 4 = [0, 1, 0, 0] :=
  ⟨(execute_request_first_frame ⟨0⟩ true ⟨9, 3, [7]⟩ []).1,
   (execute_request_first_frame ⟨0⟩ true ⟨9, 3, [7]⟩ []).2.1,
   (execute_request_first_frame ⟨0⟩ true ⟨9, 3, [7]⟩ []).2.2 rfl⟩

/-- C10: every `ExecuteRequest` call that gets past setting the deadline
increments `lastTxnId` by exactly one mod 2^16 — whatever the write flag,
the inbound stream, and hence the call's outcome — a deadline failure
leaves the state untouched, and two consecutive calls use strictly
successive transaction ids. -/
theorem execute_request_counter_advances (tt : tcpTransport) (w w' : Bool)
    (req req' : pdu) (inb inb' : List Nat) :
    (tt.ExecuteRequest true w req inb).1.lastTxnId = (tt.lastTxnId + 1) % 65536 ∧
    (tt.ExecuteRequest false w req inb).1 = tt ∧
    ((tt.ExecuteRequest true w req inb).1.ExecuteRequest true w' req' inb').1.lastTxnId
      = (tt.lastTxnId + 2) % 65536 := by
  refine ⟨?_, ?_, ?_⟩
  · cases w <;> simp [tcpTransport.ExecuteRequest]
  · simp [tcpTransport.ExecuteRequest]
  · cases w <;> cases w' <;> simp [tcpTransport.ExecuteRequest, Nat.add_mod_left, Nat.mod_add_mod]

/-- `copy` into a prefix preserves the buffer's length. -/
theorem goCopy_length (dst src : List Nat) : (goCopy dst src).length = dst.length := by
  simp [goCopy]
  omega

/-- Copying a source of exactly the buffer's length replaces the buffer. -/
theorem goCopy_eq_of_length_eq (dst src : List Nat) (h : src.length = dst.length) :
    goCopy dst src = src := by
  simp [goCopy, h, List.take_of_length_le (le_of_eq h), List.drop_length]

/-- A prefix of a copied-into buffer no longer than the copied region is a
prefix of the source. -/
theorem goCopy_take_le (dst src : List Nat) (k : Nat)
    (hk1 : k ≤ src.length) (hk2 : k ≤ dst.length) :
    (goCopy dst src).take k = src.take k := by
  rw [goCopy, List.take_append_of_le_length (by simp; omega), List.take_take]
  congr 1
  omega

/-- C7: a `Read` issued while leftover bytes are buffered copies
`min bufLen leftoverCount` bytes from the front of the internal buffer,
decrements the leftover count by that amount, performs no socket receive
(the datagram queue is untouched), keeps the buffer size, and leaves the
remaining leftover bytes shifted to the front of the buffer. -/
theorem udp_leftover_read (usw : udpSockWrapper) (bufLen : Nat)
    (hpos : 0 < usw.leftoverCount) (hinv : usw.leftoverCount ≤ usw.rxbuf.length) :
    (usw.Read bufLen).2 = .ok (usw.rxbuf.take (min bufLen usw.leftoverCount)) ∧
    (usw.Read bufLen).1.leftoverCount = usw.leftoverCount - min bufLen usw.leftoverCount ∧
    (usw.Read bufLen).1.datagrams = usw.datagrams ∧
    (usw.Read bufLen).1.rxbuf.length = usw.rxbuf.length ∧
    ((usw.Read bufLen).1.rxbuf).take (usw.leftoverCount - min bufLen usw.leftoverCount)
      = (usw.rxbuf.drop (min bufLen usw.leftoverCount)).take
          (usw.leftoverCount - min bufLen usw.leftoverCount) := by
  simp only [udpSockWrapper.Read, if_pos hpos]
  by_cases hc : min bufLen usw.leftoverCount < usw.leftoverCount
  · simp only [if_pos hc, true_and]
    refine ⟨goCopy_length _ _, ?_⟩
    rw [goCopy_take_le _ _ _ (by simp; omega) (by omega)]
    exact List.take_of_length_le (by simp)
  · simp only [if_neg hc, true_and]
    have h0 : usw.leftoverCount - min bufLen usw.leftoverCount = 0 := by omega
    simp [h0]

/-- Witness for the C7 leftover-read theorem at a concrete state. -/
theorem udp_leftover_read_witness :
    ((udpSockWrapper.mk 2 [5, 6, 7] [[9]]).Read 1).2 =
      .ok (([5, 6, 7] : List Nat).take (min 1 2)) ∧
    ((udpSockWrapper.mk 2 [5, 6, 7] [[9]]).Read 1).1.leftoverCount = 2 - min 1 2 ∧
    ((udpSockWrapper.mk 2 [5, 6, 7] [[9]]).Read 1).1.datagrams = [[9]] ∧
    ((udpSockWrapper.mk 2 [5, 6, 7] [[9]]).Read 1).1.rxbuf.length =
      ([5, 6, 7] : List Nat).length ∧
    (((udpSockWrapper.mk 2 [5, 6, 7] [[9]]).Read 1).1.rxbuf).take (2 - min 1 2)
      = (([5, 6, 7] : List Nat).drop (min 1 2)).take (2 - min 1 2) :=
  udp_leftover_read (udpSockWrapper.mk 2 [5, 6, 7] [[9]]) 1 (by decide) (by decide)

/-- A `Read` issued with no leftover bytes consumes exactly the head
datagram of the queue, and its output is a prefix of that one datagram. -/
theorem udp_fresh_read (usw : udpSockWrapper) (d' : List Nat) (ds : List (List Nat))
    (bufLen : Nat) (h0 : usw.leftoverCount = 0) (hds : usw.datagrams = d' :: ds) :
    (usw.Read bufLen).2 = .ok (d'.take (min bufLen (min d'.length usw.rxbuf.length))) ∧
    (usw.Read bufLen).1.datagrams = ds := by
  simp only [udpSockWrapper.Read, h0, hds, Nat.lt_irrefl, if_false]
  refine ⟨?_, trivial⟩
  rw [goCopy_take_le _ _ _ (by omega) (by omega)]

/-- The first `Read` of 7 bytes from a fresh 260-byte datagram. -/
theorem udp_read_head (d : List Nat) (hd : d.length = 260) :
    (udpSockWrapper.mk 0 (List.replicate 260 0) [d]).Read 7 =
      (⟨253, goCopy d ((d.drop 7).take 253), []⟩, .ok (d.take 7)) := by
  have hrx : goCopy (List.replicate 260 (0:Nat)) d = d :=
    goCopy_eq_of_length_eq _ _ (by simp [hd])
  simp only [udpSockWrapper.Read, Nat.lt_irrefl, if_false, List.length_replicate, hd,
    Nat.min_self, hrx]
  norm_num

/-- The second `Read` of the 253 leftover bytes. -/
theorem udp_read_tail (d : List Nat) (hd : d.length = 260) :
    (udpSockWrapper.mk 253 (goCopy d ((d.drop 7).take 253)) []).Read 253 =
      (⟨0, goCopy d ((d.drop 7).take 253), []⟩, .ok (d.drop 7)) := by
  have hsrc : ((d.drop 7).take 253).length = 253 := by simp [hd]
  have hout : (goCopy d ((d.drop 7).take 253)).take 253 = d.drop 7 := by
    rw [goCopy_take_le d ((d.drop 7).take 253) 253 (le_of_eq hsrc.symm) (by omega)]
    rw [List.take_of_length_le (le_of_eq hsrc)]
    exact List.take_of_length_le (by simp [hd])
  simp only [udpSockWrapper.Read, Nat.min_self, Nat.lt_irrefl, if_false, hout]
  norm_num

/-- A single `Read` of 260 bytes from the same fresh 260-byte datagram. -/
theorem udp_read_whole (d : List Nat) (hd : d.length = 260) :
    (udpSockWrapper.mk 0 (List.replicate 260 0) [d]).Read 260 = (⟨0, d, []⟩, .ok d) := by
  have hrx : goCopy (List.replicate 260 (0:Nat)) d = d :=
    goCopy_eq_of_length_eq _ _ (by simp [hd])
  simp only [udpSockWrapper.Read, Nat.lt_irrefl, if_false, List.length_replicate, hd,
    Nat.min_self, hrx]
  norm_num
  omega

/-- C8: consuming one fresh 260-byte datagram through the adapter with two
reads of 7 and 253 bytes yields `d.take 7` then `d.drop 7` — together the
same 260 bytes, in order, as the single 260-byte read yields — and, in
general, a read issued with no leftover bytes returns a prefix of exactly
the head datagram and consumes only it, so no read spans two datagrams. -/
theorem udp_stream_equivalence (d : List Nat) (hd : d.length = 260) :
    ((udpSockWrapper.mk 0 (List.replicate 260 0) [d]).Read 7).2 = .ok (d.take 7) ∧
    ((((udpSockWrapper.mk 0 (List.replicate 260 0) [d]).Read 7).1).Read 253).2 =
      .ok (d.drop 7) ∧
    d.take 7 ++ d.drop 7 = d ∧
    ((udpSockWrapper.mk 0 (List.replicate 260 0) [d]).Read 260).2 = .ok d ∧
    (∀ (usw : udpSockWrapper) (d' : List Nat) (ds : List (List Nat)) (bufLen : Nat),
      usw.leftoverCount = 0 → usw.datagrams = d' :: ds →
      (usw.Read bufLen).2 = .ok (d'.take (min bufLen (min d'.length usw.rxbuf.length))) ∧
      (usw.Read bufLen).1.datagrams = ds) := by
  refine ⟨?_, ?_, List.take_append_drop 7 d, ?_,
    fun usw d' ds bufLen h0 hds => udp_fresh_read usw d' ds bufLen h0 hds⟩
  · rw [udp_read_head d hd]
  · rw [udp_read_head d hd, udp_read_tail d hd]
  · rw [udp_read_whole d hd]

/-- Witness for the C8 equivalence theorem at a concrete datagram. -/
theorem udp_stream_equivalence_witness :
    ((udpSockWrapper.mk 0 (List.replicate 260 0) [List.replicate 260 4]).Read 7).2 =
      .ok ((List.replicate 260 (4:Nat)).take 7) ∧
    ((((udpSockWrapper.mk 0 (List.replicate 260 0) [List.replicate 260 4]).Read 7).1).Read
        253).2 = .ok ((List.replicate 260 (4:Nat)).drop 7) ∧
    (List.replicate 260 (4:Nat)).take 7 ++ (List.replicate 260 (4:Nat)).drop 7 =
      List.replicate 260 4 ∧
    ((udpSockWrapper.mk 0 (List.replicate 260 0) [List.replicate 260 4]).Read 260).2 =
      .ok (List.replicate 260 4) ∧
    (∀ (usw : udpSockWrapper) (d' : List Nat) (ds : List (List Nat)) (bufLen : Nat),
      usw.leftoverCount = 0 → usw.datagrams = d' :: ds →
      (usw.Read bufLen).2 = .ok (d'.take (min bufLen (min d'.length usw.rxbuf.length))) ∧
      (usw.Read bufLen).1.datagrams = ds) :=
  udp_stream_equivalence (List.replicate 260 4) (by simp)
